import Mathlib

/-
Shallow embedding of the session manager in src/app/page.tsx (the
SpeechToText component, the second and fully guarded variant in the file;
the cited line numbers 210-335 of the repository all fall in it).

Correspondence with the source:
  spokenText      <-> the `spokenText` React state (the spec calls it `committed`)
  interimText     <-> the `interimText` React state (the spec calls it `preview`)
  isListening     <-> the `isListening` React state
  language        <-> the `language` React state
  recognitionRef  <-> `recognitionRef.current` (none models null)
  isInitialized   <-> `isInitializedRef.current`
  isStarting      <-> `isStartingRef.current` (the spec calls it `startGuard`)
  supported       <-> whether `window.SpeechRecognition || window.webkitSpeechRecognition`
                      is defined in the host environment (fixed for a run)

A recognition handle carries the configuration written at construction time
(`recognition.lang`, `recognition.continuous`, `recognition.interimResults`)
plus a `running` flag tracking whether the engine is between a successful
start() and its end event.  `engineStart`/`engineStop` model the engine
calls as fallible operations: start() on a running handle raises
InvalidStateError, stop() on a non-running handle raises an error of the
StopOnUnstarted kind; the embedding of each try/catch in the source
dispatches on the `Except` result explicitly.

Handlers in the source are async with `await`-points (the settling delays).
Each handler is embedded both as phase functions (the code up to the await,
and the continuation after it) and, for the uninterleaved execution, as
their composition.  A continuation reads React state captured by its render
closure, not the live store: the phase functions therefore take the
captured values as explicit arguments where the source reads a state
variable after an await (`langSettle`), and read the live store where the
source reads a ref.
-/

inductive Lang
  | enUS
  | esES
  deriving DecidableEq, Repr

structure RecInstance where
  lang : Lang
  running : Bool
  continuous : Bool
  interimResults : Bool
  deriving DecidableEq, Repr

inductive EngineErr
  | stopOnUnstarted
  | invalidState
  deriving DecidableEq, Repr

/-- EngineHandle.start(): raises InvalidStateError when already running. -/
def engineStart (r : RecInstance) : Except EngineErr RecInstance :=
  if r.running then Except.error EngineErr.invalidState
  else Except.ok { r with running := true }

/-- EngineHandle.stop(): raises a StopOnUnstarted error when not running. -/
def engineStop (r : RecInstance) : Except EngineErr RecInstance :=
  if r.running then Except.ok { r with running := false }
  else Except.error EngineErr.stopOnUnstarted

/-- One engine result: isFinal plus the transcript of its first
alternative (`result[0].transcript`, the only alternative the source
reads; the engine guarantees at least one alternative per result). -/
structure SpeechResult where
  isFinal : Bool
  transcript : String
  deriving DecidableEq, Repr

structure State where
  spokenText : String
  interimText : String
  isListening : Bool
  language : Lang
  recognitionRef : Option RecInstance
  isInitialized : Bool
  isStarting : Bool
  supported : Bool
  deriving DecidableEq, Repr

/-- The component state at mount, before the mount effect runs, in a
runtime that offers the recognition capability. -/
def initState : State :=
  { spokenText := ""
    interimText := ""
    isListening := false
    language := Lang.enUS
    recognitionRef := none
    isInitialized := false
    isStarting := false
    supported := true }

/-- results.filter(result => result.isFinal).map(result => result[0].transcript).join(' ') -/
def finalJoined (b : List SpeechResult) : String :=
  String.intercalate " " ((b.filter fun r => r.isFinal).map fun r => r.transcript)

/-- results.filter(result => !result.isFinal).map(result => result[0].transcript).join('') -/
def interimJoined (b : List SpeechResult) : String :=
  String.join ((b.filter fun r => !r.isFinal).map fun r => r.transcript)

/-- recognition.onresult: the batch is the delivered `event.results` list
(the source reads `Array.from(event.results)` in full).  The JavaScript
test `if (final)` is string truthiness: the final branch is taken exactly
when the joined final text is nonempty. -/
def onresult (s : State) (b : List SpeechResult) : State :=
  let final := finalJoined b
  let interim := interimJoined b
  if final = "" then { s with interimText := interim }
  else { s with spokenText := s.spokenText ++ final ++ " ", interimText := "" }

/-- stopRecognition (lines 210-220): when a handle is bound, call stop()
inside try/catch (the catch swallows the error and leaves the handle as it
was), then clear the initialized flag and the listening state. -/
def stopRecognition (s : State) : State :=
  match s.recognitionRef with
  | none => s
  | some r =>
      let r2 := match engineStop r with
        | Except.ok r3 => r3
        | Except.error _ => r
      { s with recognitionRef := some r2, isInitialized := false, isListening := false }

/-- initializeRecognition (lines 225-275) with the language the closure
under execution supplies: early return when the runtime offers no
recognition capability; otherwise clean up via stopRecognition, construct
a fresh handle configured continuous and interim-enabled for that
language, store it in the ref and set the initialized flag. -/
def initRecognitionWith (l : Lang) (s : State) : State :=
  if s.supported then
    let s1 := stopRecognition s
    { s1 with
        recognitionRef := some { lang := l, running := false, continuous := true, interimResults := true }
        isInitialized := true }
  else s

/-- initializeRecognition called from a context whose closure language
agrees with the store (mount effect, language effect, toggle). -/
def initRecognition (s : State) : State :=
  initRecognitionWith s.language s

/-- recognition.onend (lines 260-264): clear the start guard, the
listening state and the initialized flag.  The end event fires when the
engine has stopped, so the bound handle is no longer running. -/
def recEnd (s : State) : State :=
  { s with
      isStarting := false
      isListening := false
      isInitialized := false
      recognitionRef := s.recognitionRef.map fun r => { r with running := false } }

/-- recognition.onerror (lines 266-271): same flag resets after logging. -/
def recError (s : State) : State :=
  { s with isStarting := false, isListening := false, isInitialized := false }

/-- The start branch of toggleListening up to the settling delay: set the
start guard, then re-initialize when the initialized flag is down. -/
def toggleStartPhase (s : State) : State :=
  let s1 := { s with isStarting := true }
  if s1.isInitialized then s1 else initRecognition s1

/-- The continuation of the start branch after the 100ms settling delay:
`recognitionRef.current.start(); setIsListening(true)`.  A missing handle
or a start() on a running handle throws; the surrounding catch resets the
guard, the listening state and the initialized flag. -/
def toggleSettle (s : State) : State :=
  match s.recognitionRef with
  | none => { s with isStarting := false, isListening := false, isInitialized := false }
  | some r =>
      match engineStart r with
      | Except.ok r2 => { s with recognitionRef := some r2, isListening := true }
      | Except.error _ => { s with isStarting := false, isListening := false, isInitialized := false }

/-- toggleListening (lines 287-309) up to its first suspension point:
return unchanged when no handle is bound or the start guard is held; the
stop branch runs synchronously to completion; the start branch performs
its pre-delay phase. -/
def toggleBegin (s : State) : State :=
  match s.recognitionRef with
  | none => s
  | some _ =>
      if s.isStarting then s
      else if s.isListening then stopRecognition s
      else toggleStartPhase s

/-- toggleListening run to completion with no interleaved event during the
settling delay. -/
def toggle (s : State) : State :=
  match s.recognitionRef with
  | none => s
  | some _ =>
      if s.isStarting then s
      else if s.isListening then stopRecognition s
      else toggleSettle (toggleStartPhase s)

/-- handleLanguageChange (lines 314-335) up to its suspension point:
`setLanguage(newLang)`, then, when the captured isListening is true and a
handle is bound, stopRecognition.  The captured isListening equals the
store value at entry, since nothing has updated it yet in this handler. -/
def langBegin (l : Lang) (s : State) : State :=
  let s1 := { s with language := l }
  if s.isListening && s.recognitionRef.isSome then stopRecognition s1 else s1

/-- The continuation of handleLanguageChange after the 300ms delay, taking
the values its render closure captured at entry: `initializeRecognition()`
reads the closure language (the value from before setLanguage), and
`if (isListening)` reads the captured isListening (true on this path even
though stopRecognition has since set the store value false).  On the
captured-listening path the guard is set and start() is issued; a throw is
caught and resets the three flags.  Note that the source never calls
setIsListening(true) here, and never touches interimText. -/
def langSettle (capturedListening : Bool) (capturedLang : Lang) (s : State) : State :=
  let s1 := initRecognitionWith capturedLang s
  if capturedListening then
    let s2 := { s1 with isStarting := true }
    match s2.recognitionRef with
    | none => { s2 with isStarting := false, isListening := false, isInitialized := false }
    | some r =>
        match engineStart r with
        | Except.ok r2 => { s2 with recognitionRef := some r2 }
        | Except.error _ => { s2 with isStarting := false, isListening := false, isInitialized := false }
  else s1

/-- The `useEffect` on [language] (lines 277-282): when the language state
changes, React runs the previous effect cleanup (stopRecognition) and then
the effect body (initializeRecognition, with the fresh render closure in
which the language variable holds the new store value). -/
def effectRun (s : State) : State :=
  initRecognition (stopRecognition s)

/-- Every operation and event the component dispatches on; `langSettle`
carries arbitrary captured closure values so that theorems over `Op` cover
every interleaving of the delayed continuation. -/
inductive Op
  | result (b : List SpeechResult)
  | toggleBeginOp
  | toggleSettleOp
  | stopOp
  | endOp
  | errorOp
  | langBeginOp (l : Lang)
  | langSettleOp (capturedListening : Bool) (capturedLang : Lang)
  | effectOp
  | initOp
  deriving DecidableEq, Repr

def step (s : State) : Op → State
  | Op.result b => onresult s b
  | Op.toggleBeginOp => toggleBegin s
  | Op.toggleSettleOp => toggleSettle s
  | Op.stopOp => stopRecognition s
  | Op.endOp => recEnd s
  | Op.errorOp => recError s
  | Op.langBeginOp l => langBegin l s
  | Op.langSettleOp cl cLang => langSettle cl cLang s
  | Op.effectOp => effectRun s
  | Op.initOp => initRecognition s

def run (s : State) (ops : List Op) : State :=
  ops.foldl step s

/-- A sequence of result batches delivered in order while the handlers are
bound. -/
def processBatches (s : State) (bs : List (List SpeechResult)) : State :=
  bs.foldl onresult s

/-- Concatenation with no separator (the claim-side combinator for joining
per-batch contributions). -/
def concatAll (l : List String) : String :=
  l.foldr (fun a b => a ++ b) ""

/-- The committed-transcript contribution one batch makes in the code: the
joined final text plus one trailing separator when that joined text is
nonempty (the JavaScript truthiness test), and nothing otherwise. -/
def contribC1 (b : List SpeechResult) : String :=
  if finalJoined b = "" then "" else finalJoined b ++ " "

/-- Modelled from the spec wording of claim C1: every batch containing at
least one final result contributes its space-joined final text followed by
one trailing separator. -/
def specContribC1 (b : List SpeechResult) : String :=
  if b.any (fun r => r.isFinal) then finalJoined b ++ " " else ""

/-- Modelled from the spec wording of claim C1: the committed transcript
predicted for a delivery-ordered sequence of batches starting from an
empty transcript. -/
def specCommittedC1 (bs : List (List SpeechResult)) : String :=
  concatAll (bs.map specContribC1)

theorem onresult_spokenText (s : State) (b : List SpeechResult) :
    (onresult s b).spokenText = s.spokenText ++ contribC1 b := by
  unfold onresult contribC1
  by_cases h : finalJoined b = ""
  · simp [h, String.append_empty]
  · simp [h, String.append_assoc]

theorem stopRecognition_spokenText (s : State) :
    (stopRecognition s).spokenText = s.spokenText := by
  unfold stopRecognition
  cases s.recognitionRef <;> rfl

theorem stopRecognition_interimText (s : State) :
    (stopRecognition s).interimText = s.interimText := by
  unfold stopRecognition
  cases s.recognitionRef <;> rfl

theorem stopRecognition_language (s : State) :
    (stopRecognition s).language = s.language := by
  unfold stopRecognition
  cases s.recognitionRef <;> rfl

theorem stopRecognition_isStarting (s : State) :
    (stopRecognition s).isStarting = s.isStarting := by
  unfold stopRecognition
  cases s.recognitionRef <;> rfl

theorem stopRecognition_supported (s : State) :
    (stopRecognition s).supported = s.supported := by
  unfold stopRecognition
  cases s.recognitionRef <;> rfl

theorem stopRecognition_isListening (s : State) (h : s.isListening = false) :
    (stopRecognition s).isListening = false := by
  unfold stopRecognition
  cases s.recognitionRef <;> simp [h]

theorem initRecognitionWith_spokenText (l : Lang) (s : State) :
    (initRecognitionWith l s).spokenText = s.spokenText := by
  unfold initRecognitionWith
  by_cases h : s.supported <;> simp [h, stopRecognition_spokenText]

theorem initRecognitionWith_interimText (l : Lang) (s : State) :
    (initRecognitionWith l s).interimText = s.interimText := by
  unfold initRecognitionWith
  by_cases h : s.supported <;> simp [h, stopRecognition_interimText]

theorem initRecognitionWith_language (l : Lang) (s : State) :
    (initRecognitionWith l s).language = s.language := by
  unfold initRecognitionWith
  by_cases h : s.supported <;> simp [h, stopRecognition_language]

theorem initRecognitionWith_isStarting (l : Lang) (s : State) :
    (initRecognitionWith l s).isStarting = s.isStarting := by
  unfold initRecognitionWith
  by_cases h : s.supported <;> simp [h, stopRecognition_isStarting]

theorem initRecognition_spokenText (s : State) :
    (initRecognition s).spokenText = s.spokenText :=
  initRecognitionWith_spokenText s.language s

theorem toggleStartPhase_spokenText (s : State) :
    (toggleStartPhase s).spokenText = s.spokenText := by
  unfold toggleStartPhase initRecognition
  by_cases h : s.isInitialized <;> simp [h, initRecognitionWith_spokenText]

theorem toggleSettle_spokenText (s : State) :
    (toggleSettle s).spokenText = s.spokenText := by
  unfold toggleSettle
  cases s.recognitionRef with
  | none => rfl
  | some r => cases h : engineStart r <;> simp [h]

theorem toggleBegin_spokenText (s : State) :
    (toggleBegin s).spokenText = s.spokenText := by
  unfold toggleBegin
  cases s.recognitionRef with
  | none => rfl
  | some r =>
      by_cases h1 : s.isStarting
      · simp [h1]
      · by_cases h2 : s.isListening <;>
          simp [h1, h2, stopRecognition_spokenText, toggleStartPhase_spokenText]

theorem toggle_spokenText (s : State) :
    (toggle s).spokenText = s.spokenText := by
  unfold toggle
  cases s.recognitionRef with
  | none => rfl
  | some r =>
      by_cases h1 : s.isStarting
      · simp [h1]
      · by_cases h2 : s.isListening <;>
          simp [h1, h2, stopRecognition_spokenText, toggleSettle_spokenText,
            toggleStartPhase_spokenText]

theorem langBegin_spokenText (l : Lang) (s : State) :
    (langBegin l s).spokenText = s.spokenText := by
  unfold langBegin
  by_cases h : s.isListening && s.recognitionRef.isSome <;>
    simp [h, stopRecognition_spokenText]

theorem langSettle_spokenText (cl : Bool) (cLang : Lang) (s : State) :
    (langSettle cl cLang s).spokenText = s.spokenText := by
  unfold langSettle
  by_cases h : cl
  · simp only [h, if_true]
    cases hr : (initRecognitionWith cLang s).recognitionRef with
    | none => simp [hr, initRecognitionWith_spokenText]
    | some r => cases he : engineStart r <;> simp [hr, he, initRecognitionWith_spokenText]
  · simp [h, initRecognitionWith_spokenText]

theorem effectRun_spokenText (s : State) :
    (effectRun s).spokenText = s.spokenText := by
  unfold effectRun
  rw [initRecognition_spokenText, stopRecognition_spokenText]

theorem recEnd_spokenText (s : State) : (recEnd s).spokenText = s.spokenText := rfl

theorem recError_spokenText (s : State) : (recError s).spokenText = s.spokenText := rfl

theorem step_spokenText (s : State) (op : Op) :
    (step s op).spokenText = s.spokenText ∨ ∃ b, op = Op.result b := by
  cases op with
  | result b => exact Or.inr ⟨b, rfl⟩
  | toggleBeginOp => exact Or.inl (toggleBegin_spokenText s)
  | toggleSettleOp => exact Or.inl (toggleSettle_spokenText s)
  | stopOp => exact Or.inl (stopRecognition_spokenText s)
  | endOp => exact Or.inl (recEnd_spokenText s)
  | errorOp => exact Or.inl (recError_spokenText s)
  | langBeginOp l => exact Or.inl (langBegin_spokenText l s)
  | langSettleOp cl cLang => exact Or.inl (langSettle_spokenText cl cLang s)
  | effectOp => exact Or.inl (effectRun_spokenText s)
  | initOp => exact Or.inl (initRecognition_spokenText s)

/-- A committed transcript that is empty or ends in the single-space
separator. -/
def sepTerminated (c : String) : Prop :=
  c = "" ∨ ∃ t, c = t ++ " "

theorem step_sepTerminated (s : State) (op : Op) (h : sepTerminated s.spokenText) :
    sepTerminated ((step s op).spokenText) := by
  rcases step_spokenText s op with heq | ⟨b, rfl⟩
  · rw [heq]; exact h
  · rw [show step s (Op.result b) = onresult s b from rfl, onresult_spokenText s b]
    unfold contribC1
    by_cases hf : finalJoined b = ""
    · rw [if_pos hf, String.append_empty]; exact h
    · right
      refine ⟨s.spokenText ++ finalJoined b, ?_⟩
      rw [if_neg hf, String.append_assoc]

theorem run_sepTerminated (ops : List Op) :
    ∀ s : State, sepTerminated s.spokenText → sepTerminated ((run s ops).spokenText) := by
  induction ops with
  | nil => intro s h; exact h
  | cons op ops ih => intro s h; exact ih (step s op) (step_sepTerminated s op h)

/-- C1 (amended): after processing a delivery-ordered sequence of result
batches, the committed transcript is the prior committed transcript
extended by the concatenation, in delivery order, of each batch's
space-joined final text followed by one trailing separator, restricted to
the batches whose space-joined final text is nonempty; batches whose final
text joins to the empty string (all-interim batches, or a batch whose only
final transcript is empty) contribute nothing.  Moreover no operation
other than result handling changes the committed transcript. -/
theorem C1_committed_fold :
    (∀ (s : State) (bs : List (List SpeechResult)),
        (processBatches s bs).spokenText = s.spokenText ++ concatAll (bs.map contribC1)) ∧
    (∀ (s : State) (op : Op), (step s op).spokenText = s.spokenText ∨ ∃ b, op = Op.result b) := by
  constructor
  · intro s bs
    induction bs generalizing s with
    | nil => simp [processBatches, concatAll, String.append_empty]
    | cons b bs ih =>
        show (processBatches (onresult s b) bs).spokenText = _
        rw [ih, onresult_spokenText]
        simp [concatAll, String.append_assoc]
  · exact step_spokenText

/-- C1 counterexample: a single delivered batch holding one final result
with an empty transcript.  The claim predicts that the batch contributes
its joined final text plus one trailing separator, so committed would be
a single space; the code's truthiness test `if (final)` sees the empty
joined string as falsy and appends nothing. -/
theorem C1_counterexample :
    (processBatches initState [[{ isFinal := true, transcript := "" }]]).spokenText = "" ∧
    specCommittedC1 [[{ isFinal := true, transcript := "" }]] = " " ∧
    (processBatches initState [[{ isFinal := true, transcript := "" }]]).spokenText ≠
      specCommittedC1 [[{ isFinal := true, transcript := "" }]] := by
  decide

/-- C2 (amended): after one batch, the preview is empty when the batch's
space-joined final text is nonempty (the truthiness test the code applies),
and otherwise equals the separator-free engine-ordered concatenation of
the batch's non-final transcripts; either way the new preview is a full
replacement, independent of the prior state. -/
theorem C2_preview_replaced :
    ∀ (s : State) (b : List SpeechResult),
      (onresult s b).interimText = (if finalJoined b = "" then interimJoined b else "") ∧
      ∀ t : State, (onresult s b).interimText = (onresult t b).interimText := by
  intro s b
  constructor
  · unfold onresult
    by_cases h : finalJoined b = "" <;> simp [h]
  · intro t
    unfold onresult
    by_cases h : finalJoined b = "" <;> simp [h]

/-- C2 counterexample: a batch holding a final result with an empty
transcript plus a non-final result with transcript x.  The claim says a
batch containing at least one final result leaves the preview empty; the
code's truthiness test routes this batch to the interim branch and sets
the preview to x. -/
theorem C2_counterexample :
    (([{ isFinal := true, transcript := "" },
      { isFinal := false, transcript := "x" }] : List SpeechResult).any (fun r => r.isFinal)) = true ∧
    (onresult initState
      [{ isFinal := true, transcript := "" },
       { isFinal := false, transcript := "x" }]).interimText = "x" ∧
    ("x" : String) ≠ "" := by
  decide

/-- C7: every operation of the session manager leaves the prior committed
transcript as a prefix of the new one: there is always a suffix t with
committed-after = committed-before ++ t, so committed never shrinks and
previously appended segments are never reordered, truncated or edited. -/
theorem C7_committed_monotone (s : State) (op : Op) :
    ∃ t : String, (step s op).spokenText = s.spokenText ++ t := by
  rcases step_spokenText s op with h | ⟨b, rfl⟩
  · exact ⟨"", by rw [h, String.append_empty]⟩
  · exact ⟨contribC1 b, onresult_spokenText s b⟩

/-- C9: in every state reachable from the mount state by any sequence of
operations and engine events, the committed transcript is either empty or
ends in the single-space separator, because the only write appends the
joined final text plus exactly one trailing separator. -/
theorem C9_committed_separator (ops : List Op) :
    sepTerminated ((run initState ops).spokenText) :=
  run_sepTerminated ops initState (Or.inl rfl)

/-- C3: a call to toggleListening made while the start guard is held — in
particular the second of two calls issued within the settling delay, after
the first has set the guard — is dropped by the re-entrancy check and
changes nothing, whether it arrives before the pending start settles
(toggleBegin) or is allowed to run to completion (toggle); so only the
first call's Starting-to-Listening transition takes place. -/
theorem C3_toggle_guard_noop (s : State) (h : s.isStarting = true) :
    toggle s = s ∧ toggleBegin s = s := by
  constructor
  · unfold toggle
    cases s.recognitionRef <;> simp [h]
  · unfold toggleBegin
    cases s.recognitionRef <;> simp [h]

theorem C3_toggle_guard_noop_witness :
    toggle (toggleStartPhase (initRecognition initState)) =
      toggleStartPhase (initRecognition initState) ∧
    toggleBegin (toggleStartPhase (initRecognition initState)) =
      toggleStartPhase (initRecognition initState) :=
  C3_toggle_guard_noop (toggleStartPhase (initRecognition initState)) rfl

/-- C4 (code bug): after a mount and one toggleListening allowed to settle
successfully, the session is Listening yet the start guard is still held,
because the success path of toggleListening never clears isStartingRef and
no onstart handler exists to clear it; consequently the next toggle is
dropped by the guard and cannot stop the session.  The claimed invariant
(Listening implies the guard is released) fails in this reachable state. -/
theorem C4_listening_guard_stuck :
    (toggle (initRecognition initState)).isListening = true ∧
    (toggle (initRecognition initState)).isStarting = true ∧
    toggle (toggle (initRecognition initState)) = toggle (initRecognition initState) := by
  decide

/-- C5 (code bug): changing the language to es-ES while Listening in en-US
with committed "hello " and preview "wor".  The code ends with the
committed transcript preserved (which the claim also says), but with the
listening status false (setIsListening(true) is never called on the
restart path), the preview still "wor" (never cleared), the language state
es-ES, and the running handle bound to en-US: the continuation's
initializeRecognition call reads the render closure's language variable,
which still holds the old value.  The claim instead requires the session
to end Listening with the new language and the preview cleared. -/
theorem C5_language_change_divergence :
    (let s3 := onresult (onresult (toggle (initRecognition initState))
        [{ isFinal := true, transcript := "hello" }]) [{ isFinal := false, transcript := "wor" }]
     let sEnd := langSettle true Lang.enUS (effectRun (langBegin Lang.esES s3))
     s3.isListening = true ∧ s3.language = Lang.enUS ∧ s3.spokenText = "hello " ∧
     s3.interimText = "wor" ∧
     sEnd.language = Lang.esES ∧ sEnd.isListening = false ∧ sEnd.interimText = "wor" ∧
     sEnd.recognitionRef =
       some { lang := Lang.enUS, running := true, continuous := true, interimResults := true } ∧
     sEnd.spokenText = "hello ") := by
  decide

/-- C6: invoking stopRecognition while the session is already Idle keeps
the status Idle and both transcript buffers unchanged, and when a
non-running handle is bound the engine stop() call does raise the
StopOnUnstarted error, which the try/catch swallows: the result is the
same total state update, with the handle left exactly as it was. -/
theorem C6_stop_idle_noop (s : State) (h : s.isListening = false) :
    (stopRecognition s).isListening = false ∧
    (stopRecognition s).spokenText = s.spokenText ∧
    (stopRecognition s).interimText = s.interimText ∧
    ∀ r, s.recognitionRef = some r → r.running = false →
      engineStop r = Except.error EngineErr.stopOnUnstarted ∧
      stopRecognition s =
        { s with recognitionRef := some r, isInitialized := false, isListening := false } := by
  refine ⟨stopRecognition_isListening s h, stopRecognition_spokenText s,
    stopRecognition_interimText s, ?_⟩
  intro r hr hrun
  constructor
  · simp [engineStop, hrun]
  · unfold stopRecognition
    rw [hr]
    simp [engineStop, hrun]

theorem C6_stop_idle_noop_witness :
    (stopRecognition (initRecognition initState)).isListening = false ∧
    (stopRecognition (initRecognition initState)).spokenText = "" ∧
    engineStop { lang := Lang.enUS, running := false, continuous := true, interimResults := true } =
      Except.error EngineErr.stopOnUnstarted := by
  have hthm := C6_stop_idle_noop (initRecognition initState) rfl
  exact ⟨hthm.1, hthm.2.1,
    (hthm.2.2.2 { lang := Lang.enUS, running := false, continuous := true, interimResults := true }
      rfl rfl).1⟩

/-- C8: from any settled non-listening state in a capable runtime,
handleLanguageChange(L) updates the stored language unconditionally and
takes no restart path; the language effect rebinds a fresh handle for L;
and the next toggleListening starts that handle, ending Listening with the
running handle configured for L. -/
theorem C8_language_roundtrip (s : State) (L : Lang)
    (h1 : s.isListening = false) (h2 : s.isStarting = false) (h3 : s.supported = true) :
    (toggle (effectRun (langBegin L s))).language = L ∧
    (toggle (effectRun (langBegin L s))).recognitionRef =
      some { lang := L, running := true, continuous := true, interimResults := true } ∧
    (toggle (effectRun (langBegin L s))).isListening = true := by
  rcases s with ⟨sp, it, il, lg, rr, ii, ist, sup⟩
  obtain rfl : il = false := h1
  obtain rfl : ist = false := h2
  obtain rfl : sup = true := h3
  rcases rr with _ | ⟨rl, rrun, rc, ri⟩
  · exact ⟨rfl, rfl, rfl⟩
  · cases rrun <;> exact ⟨rfl, rfl, rfl⟩

theorem C8_language_roundtrip_witness :
    (toggle (effectRun (langBegin Lang.esES initState))).language = Lang.esES ∧
    (toggle (effectRun (langBegin Lang.esES initState))).recognitionRef =
      some { lang := Lang.esES, running := true, continuous := true, interimResults := true } ∧
    (toggle (effectRun (langBegin Lang.esES initState))).isListening = true :=
  C8_language_roundtrip initState Lang.esES rfl rfl rfl

/-- C10: when no engine handle is bound (for example because binding
failed in a runtime without the recognition capability), toggleListening
returns at its first guard without touching the missing handle, so the
whole state — status, committed and preview included — is unchanged,
whether the call is observed at its first phase or run to completion. -/
theorem C10_toggle_no_handle_noop (s : State) (h : s.recognitionRef = none) :
    toggle s = s ∧ toggleBegin s = s := by
  constructor
  · unfold toggle
    rw [h]
  · unfold toggleBegin
    rw [h]

theorem C10_toggle_no_handle_noop_witness :
    (initRecognition { initState with supported := false }).recognitionRef = none ∧
    toggle (initRecognition { initState with supported := false }) =
      initRecognition { initState with supported := false } :=
  ⟨rfl, (C10_toggle_no_handle_noop (initRecognition { initState with supported := false }) rfl).1⟩
